import Mathlib

/-
Verification of the event aggregation and batched write-back engine in
`server/server.go` (package server of the myko repository).

Modelling conventions:
* Go strings are modelled as `List Char` (`Str`), so that the separator
  manipulation done by `key` / `parseKey` (string concatenation and
  `strings.Split` on ":") can be reasoned about by structural induction.
* `float64` event values are modelled as `Int`: the engine only ever adds
  values, and every concrete value appearing in the specification is a small
  integer, so exact integer arithmetic is the idealisation used throughout.
* The Go map `map[string]*pb.Event` is modelled as an association list
  (`List (Str × Event)`) with no duplicate keys: insertion appends, update
  rewrites in place.  Map contents (the finite partial function) are what the
  claims speak about; iteration order of the Go map is immaterial to them.
* `time.Time` / `time.Duration` are modelled as `Int` nanosecond counts from
  Go's zero time, so a freshly constructed writer has `lastExport = 0`.
  `time.Time.Before` is strict `<`.  A write takes two instants: `now` (the
  clock read inside the flush condition) and `done` (the clock read when the
  flush completes, stored into `lastExport`).
* The Cassandra store is modelled as a list of rows; a batch write appends
  one row per buffered aggregate, and its success is an explicit boolean
  parameter (`storeOk`).  The filter-to-CQL translator and the scan live in
  `datastore/cassandra`, which is not part of the sources; their behaviour is
  modelled from the spec where marked below.
-/

deriving instance DecidableEq for Except

namespace Myko

/-- Go strings, as lists of characters. -/
abbrev Str := List Char

/-- One numeric measurement, `pb.Event` (name, value, unit). -/
structure Event where
  name : Str
  value : Int
  unit : Str
deriving DecidableEq, Repr

/-- One caller submission, `pb.Entry` (origin, traceId, events). -/
structure Entry where
  origin : Str
  traceId : Str
  events : List Event
deriving DecidableEq, Repr

/-- The aggregation key of server.go line 218: four fields joined with ":". -/
def key (origin traceID name unit : Str) : Str :=
  origin ++ [':'] ++ traceID ++ [':'] ++ name ++ [':'] ++ unit

/-- Go `strings.Split s ":"`: splits at every colon, `splitOnColon [] = [[]]`
exactly as `strings.Split("", ":") = [""]`. -/
def splitOnColon : Str → List Str
  | [] => [[]]
  | c :: rest =>
    match splitOnColon rest with
    | [] => [[]]
    | s :: ss => if c = ':' then [] :: s :: ss else (c :: s) :: ss

/-- The key parser of server.go line 222: split on ":" and take the first
four components (the Go code indexes `v[0] .. v[3]`; on every key produced by
`key` at least four components exist). -/
def parseKey (k : Str) : Str × Str × Str × Str :=
  let v := splitOnColon k
  (v.getD 0 [], v.getD 1 [], v.getD 2 [], v.getD 3 [])

/-- Association-list lookup standing for Go's `v, ok := m[k]`. -/
def lookupA (k : Str) : List (Str × Event) → Option Event
  | [] => none
  | p :: rest => if k = p.1 then some p.2 else lookupA k rest

/-- Association-list update standing for Go's `m[k] = v` when `k` is present. -/
def setAssoc (k : Str) (v : Event) : List (Str × Event) → List (Str × Event)
  | [] => []
  | p :: rest => if k = p.1 then (p.1, v) :: rest else p :: setAssoc k v rest

/-- The shared merge step of both paths: insert the event under `k` if the
key is absent, otherwise add its value onto the stored aggregate (which keeps
its originally stored name and unit), as in server.go lines 159-165 and
66-76. -/
def accMerge (k : Str) (ev : Event) (m : List (Str × Event)) : List (Str × Event) :=
  match lookupA k m with
  | some v => setAssoc k { v with value := v.value + ev.value } m
  | none => m ++ [(k, ev)]

/-- One iteration of the write-path loop of server.go lines 157-166: the key
is built from the entry's origin and traceId and the event's name and unit. -/
def mergeOne (origin traceId : Str) (m : List (Str × Event)) (ev : Event) :
    List (Str × Event) :=
  accMerge (key origin traceId ev.name ev.unit) ev m

/-- The in-memory batch writer of server.go lines 143-151 (the mutex is not
modelled: every claim is about a single sequential execution). -/
structure batchWriter where
  events : List (Str × Event)
  lastExport : Int
  n : Nat
  flushInterval : Int
deriving DecidableEq, Repr

/-- Constructor of server.go line 133: empty buffer, zero `lastExport`. -/
def newBatchWriter (n : Nat) (flushInterval : Int) : batchWriter :=
  { events := [], lastExport := 0, n := n, flushInterval := flushInterval }

/-- The merge loop of `batchWriter.Write` (server.go lines 157-166), without
the trailing `flushIfNeeded` call. -/
def batchWriter.merge (b : batchWriter) (e : Entry) : batchWriter :=
  { b with events := e.events.foldl (mergeOne e.origin e.traceId) b.events }

/-- One durable row of the events table, as inserted by the flush batch
(server.go lines 183-188); the generated UUID and `created_at` timestamp play
no role in any claim and are omitted. -/
structure Row where
  traceId : Str
  origin : Str
  name : Str
  value : Int
  unit : Str
deriving DecidableEq, Repr

/-- The rows the flush loop of server.go lines 176-191 builds from the
buffer: each buffered aggregate decodes its key and becomes one insert. -/
def flushRows (events : List (Str × Event)) : List Row :=
  events.map fun p =>
    { traceId := (parseKey p.1).2.1
      origin := (parseKey p.1).1
      name := (parseKey p.1).2.2.1
      value := p.2.value
      unit := (parseKey p.1).2.2.2 }

/-- The flush condition of server.go line 172:
`len(b.events) > b.n || b.lastExport.Before(now.Add(-b.flushInterval))`,
where `Before` is strict. -/
def batchWriter.shouldFlush (b : batchWriter) (now : Int) : Bool :=
  b.events.length > b.n || b.lastExport < now - b.flushInterval

/-- Observable outcome of a write: the writer state after the call, the store
contents, whether a flush was attempted, and whether the call returned an
error. -/
structure FlushResult where
  writer : batchWriter
  store : List Row
  flushed : Bool
  err : Bool
deriving DecidableEq, Repr

/-- `batchWriter.flushIfNeeded` (server.go lines 170-200).  When the
condition holds, the buffered aggregates are turned into rows and executed as
one batch: on success the buffer is cleared and `lastExport` becomes `done`;
on store failure the method returns the error before clearing anything. -/
def batchWriter.flushIfNeeded (b : batchWriter) (now done : Int) (storeOk : Bool)
    (store : List Row) : FlushResult :=
  if b.shouldFlush now then
    if storeOk then
      { writer := { b with events := [], lastExport := done }
        store := store ++ flushRows b.events
        flushed := true
        err := false }
    else
      { writer := b, store := store, flushed := true, err := true }
  else
    { writer := b, store := store, flushed := false, err := false }

/-- `batchWriter.Write` (server.go lines 153-168): merge every event of the
entry into the buffer, then run `flushIfNeeded`. -/
def batchWriter.Write (b : batchWriter) (e : Entry) (now done : Int)
    (storeOk : Bool) (store : List Row) : FlushResult :=
  (b.merge e).flushIfNeeded now done storeOk store

/-- The query/delete filter (`pb.QueryRequest` fields); an empty string means
the field is unset. -/
structure Filter where
  traceId : Str
  origin : Str
  event : Str
deriving DecidableEq, Repr

/-- Modelled from the spec: the filter-to-predicate translator and the store
scan live in `datastore/cassandra`, which is outside the given sources.  Per
the spec a filter's fields are all optional and scope the scan to the rows
whose corresponding columns equal every field that is set. -/
def rowMatches (f : Filter) (r : Row) : Bool :=
  (f.traceId.isEmpty || f.traceId == r.traceId) &&
  (f.origin.isEmpty || f.origin == r.origin) &&
  (f.event.isEmpty || f.event == r.name)

/-- The key the query loop builds for a scanned row (server.go line 65): the
request's traceId and origin together with the row's name and unit. -/
def qkey (f : Filter) (r : Row) : Str :=
  key f.traceId f.origin r.name r.unit

/-- The event a scanned row contributes on first sight (server.go lines
71-75). -/
def rowEvent (r : Row) : Event :=
  { name := r.name, value := r.value, unit := r.unit }

/-- The fold of server.go lines 63-77: every scanned row is merged into the
map under `qkey`. -/
def queryAccum (f : Filter) (store : List Row) : List (Str × Event) :=
  (store.filter (rowMatches f)).foldl (fun acc r => accMerge (qkey f r) (rowEvent r) acc) []

/-- The comparison of `eventSorter.Less` (server.go line 211), relaxed to its
reflexive closure for stating sortedness: ascending by event name. -/
def evLe (a b : Event) : Prop := a.name ≤ b.name

instance : DecidableRel evLe :=
  fun a b => inferInstanceAs (Decidable (a.name ≤ b.name))

instance : IsTotal Event evLe := ⟨fun a b => le_total a.name b.name⟩

instance : IsTrans Event evLe := ⟨fun _ _ _ h1 h2 => le_trans h1 h2⟩

/-- The successful query result (server.go lines 78-89): collect the
aggregates and sort them by name. -/
def queryEvents (f : Filter) (store : List Row) : List Event :=
  List.insertionSort evLe ((queryAccum f store).map Prod.snd)

/-- `Server.Query` (server.go lines 39-90).  `filterOk` is false when
`Filter.CQL` rejects the filter, `scanOk` is false when the store scan fails
(both collaborators live outside the given sources; the spec says each
failure fails the whole query). -/
def Query (store : List Row) (f : Filter) (filterOk scanOk : Bool) :
    Except Str (List Event) :=
  if filterOk then
    if scanOk then
      .ok (queryEvents f store)
    else
      .error ("scan failed".toList)
  else
    .error ("invalid filter".toList)

/-- The accumulated value stored under key `k` in a buffer or query map
(`0` when the key is absent). -/
def valueAt (k : Str) (m : List (Str × Event)) : Int :=
  match lookupA k m with
  | some e => e.value
  | none => 0

/-- A sequence of `batchWriter.Write` merge phases (no flush in between):
the buffer state reached after several calls whose flush condition did not
fire. -/
def writeEntries (b : batchWriter) (es : List Entry) : batchWriter :=
  es.foldl batchWriter.merge b

/-- One entry per group, every event named `n` with unit `u`, sharing origin
`o` and trace `t`: a grouping of one measurement series into submissions. -/
def groupEntries (o t n u : Str) (vss : List (List Int)) : List Entry :=
  vss.map fun vs =>
    { origin := o, traceId := t
      events := vs.map fun v => { name := n, value := v, unit := u } }

/-! Helper lemmas about the separator-joined key encoding. -/

theorem splitOnColon_ne_nil (l : Str) : splitOnColon l ≠ [] := by
  cases l with
  | nil => simp [splitOnColon]
  | cons c rest =>
    cases h : splitOnColon rest with
    | nil => simp [splitOnColon, h]
    | cons s ss =>
      simp only [splitOnColon, h]
      split <;> simp

theorem splitOnColon_append (a rest : Str) (h : ':' ∉ a) :
    splitOnColon (a ++ ':' :: rest) = a :: splitOnColon rest := by
  induction a with
  | nil =>
    cases h2 : splitOnColon rest with
    | nil => exact absurd h2 (splitOnColon_ne_nil rest)
    | cons s ss => simp [splitOnColon, h2]
  | cons c a ih =>
    have hc : c ≠ ':' := fun hh => h (hh ▸ List.mem_cons_self c a)
    have ha : ':' ∉ a := fun hh => h (List.mem_cons_of_mem c hh)
    rw [List.cons_append]
    simp only [splitOnColon, ih ha]
    simp [hc]

theorem splitOnColon_eq_self (a : Str) (h : ':' ∉ a) : splitOnColon a = [a] := by
  induction a with
  | nil => rfl
  | cons c a ih =>
    have hc : c ≠ ':' := fun hh => h (hh ▸ List.mem_cons_self c a)
    have ha : ':' ∉ a := fun hh => h (List.mem_cons_of_mem c hh)
    simp only [splitOnColon, ih ha]
    simp [hc]

theorem parseKey_key_aux (o t n u : Str) (ho : ':' ∉ o) (ht : ':' ∉ t)
    (hn : ':' ∉ n) (hu : ':' ∉ u) :
    parseKey (key o t n u) = (o, t, n, u) := by
  have hsplit : splitOnColon (key o t n u) = [o, t, n, u] := by
    have hshape : key o t n u = o ++ ':' :: (t ++ ':' :: (n ++ ':' :: u)) := by
      simp [key]
    rw [hshape, splitOnColon_append _ _ ho, splitOnColon_append _ _ ht,
      splitOnColon_append _ _ hn, splitOnColon_eq_self _ hu]
  simp [parseKey, hsplit]

/-! Helper lemmas about association-list lookup and the shared merge step. -/

theorem lookupA_append (k : Str) (m l : List (Str × Event)) :
    lookupA k (m ++ l) =
      match lookupA k m with
      | some v => some v
      | none => lookupA k l := by
  induction m with
  | nil => rfl
  | cons p m ih =>
    by_cases hk : k = p.1
    · simp [lookupA, hk]
    · simp [lookupA, hk, ih]

theorem lookupA_setAssoc_self (k : Str) (v : Event) (m : List (Str × Event))
    (h : (lookupA k m).isSome) : lookupA k (setAssoc k v m) = some v := by
  induction m with
  | nil => simp [lookupA] at h
  | cons p m ih =>
    by_cases hk : k = p.1
    · simp [setAssoc, lookupA, hk]
    · simp only [lookupA, if_neg hk] at h
      simp [setAssoc, lookupA, hk, ih h]

theorem lookupA_setAssoc_ne (k k2 : Str) (v : Event) (m : List (Str × Event))
    (h : k ≠ k2) : lookupA k (setAssoc k2 v m) = lookupA k m := by
  induction m with
  | nil => rfl
  | cons p m ih =>
    by_cases hk2 : k2 = p.1
    · subst hk2
      simp [setAssoc, lookupA, h]
    · simp [setAssoc, hk2, lookupA, ih]

theorem valueAt_accMerge (k k2 : Str) (ev : Event) (m : List (Str × Event)) :
    valueAt k (accMerge k2 ev m) = valueAt k m + if k = k2 then ev.value else 0 := by
  by_cases hk : k = k2
  · subst hk
    cases h : lookupA k m with
    | none => simp [accMerge, h, valueAt, lookupA_append, lookupA]
    | some v =>
      have hset := lookupA_setAssoc_self k { v with value := v.value + ev.value } m
        (by simp [h])
      simp [accMerge, h, valueAt, hset]
  · cases h : lookupA k2 m with
    | none =>
      simp only [accMerge, h, valueAt, lookupA_append, if_neg hk]
      cases lookupA k m <;> simp [lookupA, hk]
    | some v =>
      simp [accMerge, h, valueAt, lookupA_setAssoc_ne k k2 _ m hk, hk]

theorem valueAt_foldl {α : Type} (keyOf : α → Str) (evOf : α → Event)
    (l : List α) (m : List (Str × Event)) (k : Str) :
    valueAt k (l.foldl (fun acc x => accMerge (keyOf x) (evOf x) acc) m) =
      valueAt k m + ((l.filter fun x => keyOf x == k).map fun x => (evOf x).value).sum := by
  induction l generalizing m with
  | nil => simp
  | cons x l ih =>
    rw [List.foldl_cons, ih, valueAt_accMerge]
    by_cases h : k = keyOf x
    · have hb : (keyOf x == k) = true := by simp [h.symm]
      simp only [if_pos h, List.filter_cons, hb, if_true, List.map_cons, List.sum_cons]
      omega
    · have hb : (keyOf x == k) = false := by
        simp only [beq_eq_false_iff_ne, ne_eq]
        exact fun hh => h hh.symm
      simp [if_neg h, List.filter_cons, hb]

/-! Helper lemmas about writing one measurement series in groups. -/

theorem writeEntries_groupEntries (o t n u : Str) (vss : List (List Int)) (b : batchWriter) :
    (writeEntries b (groupEntries o t n u vss)).events =
      vss.flatten.foldl
        (fun acc v => mergeOne o t acc { name := n, value := v, unit := u }) b.events := by
  induction vss generalizing b with
  | nil => rfl
  | cons vs vss ih =>
    simp only [groupEntries, List.map_cons, writeEntries, List.foldl_cons, List.flatten_cons,
      List.foldl_append]
    have hstep :
        (b.merge { origin := o, traceId := t
                   events := vs.map fun v => { name := n, value := v, unit := u } }).events =
          vs.foldl (fun acc v => mergeOne o t acc { name := n, value := v, unit := u }) b.events := by
      simp [batchWriter.merge, List.foldl_map]
    have := ih (b.merge { origin := o, traceId := t
                          events := vs.map fun v => { name := n, value := v, unit := u } })
    simp only [writeEntries, groupEntries] at this
    rw [this, hstep]

theorem constFold_shape (o t n u : Str) (vs : List Int) (s : Int) :
    vs.foldl (fun acc v => mergeOne o t acc { name := n, value := v, unit := u })
        [(key o t n u, { name := n, value := s, unit := u })] =
      [(key o t n u, { name := n, value := s + vs.sum, unit := u })] := by
  induction vs generalizing s with
  | nil => simp
  | cons v vs ih =>
    rw [List.foldl_cons]
    have hstep :
        mergeOne o t [(key o t n u, { name := n, value := s, unit := u })]
            { name := n, value := v, unit := u } =
          [(key o t n u, { name := n, value := s + v, unit := u })] := by
      simp [mergeOne, accMerge, lookupA, setAssoc]
    rw [hstep, ih]
    have : s + (v :: vs).sum = s + v + vs.sum := by
      rw [List.sum_cons]
      ring
    rw [this]

theorem constFold_empty (o t n u : Str) (vs : List Int) :
    vs.foldl (fun acc v => mergeOne o t acc { name := n, value := v, unit := u }) [] =
      if vs = [] then []
      else [(key o t n u, { name := n, value := vs.sum, unit := u })] := by
  cases vs with
  | nil => rfl
  | cons v vs =>
    rw [List.foldl_cons]
    have hstep :
        mergeOne o t [] { name := n, value := v, unit := u } =
          [(key o t n u, { name := n, value := v, unit := u })] := by
      simp [mergeOne, accMerge, lookupA]
    rw [hstep, constFold_shape, if_neg (List.cons_ne_nil v vs)]
    rw [List.sum_cons]

/-! Claim theorems. -/

/-- C1: after inserting the entry `{origin="o", traceId="t",
events=[{cpu,1,pct},{cpu,2,pct}]}` into the write-back buffer, forcing a
flush to the store (the time trigger fires at `now = 1000` against
`lastExport = 0` and interval `100`), and querying with the filter
`{origin="o", traceId="t"}`, the query returns exactly one event
`{cpu, 3, pct}`: store-side re-aggregation reconstitutes the write-side
merge total. -/
theorem write_then_query_roundtrip :
    (batchWriter.Write (newBatchWriter 10 100)
        { origin := "o".toList, traceId := "t".toList,
          events := [{ name := "cpu".toList, value := 1, unit := "pct".toList },
                     { name := "cpu".toList, value := 2, unit := "pct".toList }] }
        1000 1000 true []).err = false ∧
    Query (batchWriter.Write (newBatchWriter 10 100)
        { origin := "o".toList, traceId := "t".toList,
          events := [{ name := "cpu".toList, value := 1, unit := "pct".toList },
                     { name := "cpu".toList, value := 2, unit := "pct".toList }] }
        1000 1000 true []).store
      { traceId := "t".toList, origin := "o".toList, event := [] } true true =
    .ok [{ name := "cpu".toList, value := 3, unit := "pct".toList }] := by
  decide

/-- C2 counterexample: the key encoding is not losslessly reversible when a
field contains the separator: for `origin = "a:b"` the parser returns
`("a", "b", "c", "d")` instead of the original four fields. -/
theorem key_roundtrip_cex :
    parseKey (key ("a:b".toList) ("c".toList) ("d".toList) ("e".toList)) ≠
      ("a:b".toList, "c".toList, "d".toList, "e".toList) := by
  decide

/-- C2 (amended): the aggregation-key round trip
`parseKey (key o t n u) = (o, t, n, u)` holds exactly for the tuples in
which no field contains the separator character `':'`; a field containing
the separator is mis-parsed (see the counterexample). -/
theorem key_roundtrip_no_separator (o t n u : Str) (ho : ':' ∉ o) (ht : ':' ∉ t)
    (hn : ':' ∉ n) (hu : ':' ∉ u) :
    parseKey (key o t n u) = (o, t, n, u) :=
  parseKey_key_aux o t n u ho ht hn hu

/-- C2 witness: the round trip evaluated at a concrete separator-free
tuple. -/
theorem key_roundtrip_no_separator_witness :
    parseKey (key ("o".toList) ("t".toList) ("cpu".toList) ("pct".toList)) =
      ("o".toList, "t".toList, "cpu".toList, "pct".toList) :=
  key_roundtrip_no_separator ("o".toList) ("t".toList) ("cpu".toList) ("pct".toList)
    (by decide) (by decide) (by decide) (by decide)

/-- C3 counterexample: after a failing store batch write during flush the
write call does return the error, but the buffered aggregate is NOT
discarded: it is still in the buffer when the flush routine returns. -/
theorem flush_failure_discard_cex :
    (batchWriter.Write { events := [], lastExport := 0, n := 0, flushInterval := 100 }
        { origin := "o".toList, traceId := "t".toList,
          events := [{ name := "cpu".toList, value := 1, unit := "pct".toList }] }
        50 50 false []).err = true ∧
    (batchWriter.Write { events := [], lastExport := 0, n := 0, flushInterval := 100 }
        { origin := "o".toList, traceId := "t".toList,
          events := [{ name := "cpu".toList, value := 1, unit := "pct".toList }] }
        50 50 false []).writer.events ≠ [] := by
  decide

/-- C3 (amended): if the store batch write executed during a flush fails,
the write call returns that error and the buffered aggregates are left in
the buffer unchanged (and `lastExport` does not advance), so they will be
re-attempted by a later flush; nothing is discarded or re-buffered. -/
theorem flush_failure_keeps_buffer (b : batchWriter) (e : Entry) (now done : Int)
    (store : List Row) (h : (b.merge e).shouldFlush now = true) :
    (batchWriter.Write b e now done false store).err = true ∧
    (batchWriter.Write b e now done false store).writer = b.merge e ∧
    (batchWriter.Write b e now done false store).store = store := by
  simp [batchWriter.Write, batchWriter.flushIfNeeded, h]

/-- C3 witness: a concrete failing flush returns the error and keeps both
the merged buffer and the store unchanged. -/
theorem flush_failure_keeps_buffer_witness :
    (batchWriter.Write { events := [], lastExport := 0, n := 0, flushInterval := 100 }
        { origin := "o".toList, traceId := "t".toList,
          events := [{ name := "cpu".toList, value := 1, unit := "pct".toList }] }
        50 50 false []).err = true ∧
    (batchWriter.Write { events := [], lastExport := 0, n := 0, flushInterval := 100 }
        { origin := "o".toList, traceId := "t".toList,
          events := [{ name := "cpu".toList, value := 1, unit := "pct".toList }] }
        50 50 false []).writer =
      batchWriter.merge { events := [], lastExport := 0, n := 0, flushInterval := 100 }
        { origin := "o".toList, traceId := "t".toList,
          events := [{ name := "cpu".toList, value := 1, unit := "pct".toList }] } ∧
    (batchWriter.Write { events := [], lastExport := 0, n := 0, flushInterval := 100 }
        { origin := "o".toList, traceId := "t".toList,
          events := [{ name := "cpu".toList, value := 1, unit := "pct".toList }] }
        50 50 false []).store = [] :=
  flush_failure_keeps_buffer
    { events := [], lastExport := 0, n := 0, flushInterval := 100 }
    { origin := "o".toList, traceId := "t".toList,
      events := [{ name := "cpu".toList, value := 1, unit := "pct".toList }] }
    50 50 [] (by decide)

/-- C4 counterexample: two stored rows whose fields are NOT all equal (their
names and units differ) are nevertheless summed into a single query bucket,
because the concatenated keys `t:o:a:b:c` collide around the separator. -/
theorem query_grouping_cex :
    ("a:b".toList : Str) ≠ "a".toList ∧
    Query [{ traceId := "t".toList, origin := "o".toList, name := "a:b".toList,
             value := 1, unit := "c".toList },
           { traceId := "t".toList, origin := "o".toList, name := "a".toList,
             value := 2, unit := "b:c".toList }]
      { traceId := "t".toList, origin := "o".toList, event := [] } true true =
    .ok [{ name := "a:b".toList, value := 3, unit := "c".toList }] := by
  decide

/-- C4 (amended): the query folds each scanned row into the accumulated
value mapping under the key built from the FILTER's traceId and origin and
the ROW's name and unit; the value accumulated under any key `k` is exactly
the sum of the matching rows whose query key equals `k` as a string.  Rows
with identical name and unit always share a bucket, but the converse fails:
rows whose fields differ can collide via the separator (see the
counterexample), and the rows' own traceId and origin columns are not part
of the grouping. -/
theorem query_groups_by_filter_key (f : Filter) (store : List Row) (k : Str) :
    valueAt k (queryAccum f store) =
      (((store.filter (rowMatches f)).filter fun r => qkey f r == k).map Row.value).sum := by
  unfold queryAccum
  rw [valueAt_foldl (qkey f) rowEvent]
  simp [valueAt, lookupA, rowEvent]

/-- C5 counterexample: at the exact boundary `now - lastExport =
flushInterval` (here `100 - 0 = 100`) the claimed `>=` trigger would fire,
but the code compares strictly and does not flush. -/
theorem flush_trigger_boundary_cex :
    (100 : Int) - (0 : Int) ≥ 100 ∧
    (batchWriter.Write { events := [], lastExport := 0, n := 5, flushInterval := 100 }
        { origin := "o".toList, traceId := "t".toList,
          events := [{ name := "cpu".toList, value := 1, unit := "pct".toList }] }
        100 100 true []).flushed = false := by
  decide

/-- C5 (amended): a flush fires on a write exactly when, after merging the
entry's events, `len(buffer) > capacity` OR `now - lastExport >
flushInterval` (strictly, since `time.Time.Before` is strict); when neither
condition holds, no flush occurs and the merged buffer and the store are
left in place. -/
theorem flush_trigger_strict (b : batchWriter) (e : Entry) (now done : Int)
    (storeOk : Bool) (store : List Row) :
    ((batchWriter.Write b e now done storeOk store).flushed = true ↔
      ((b.merge e).events.length > b.n ∨ b.lastExport < now - b.flushInterval)) ∧
    ((batchWriter.Write b e now done storeOk store).flushed = false →
      (batchWriter.Write b e now done storeOk store).writer = b.merge e ∧
      (batchWriter.Write b e now done storeOk store).store = store) := by
  have hsf : (b.merge e).shouldFlush now =
      ((b.merge e).events.length > b.n ∨ b.lastExport < now - b.flushInterval : Bool) := by
    simp [batchWriter.shouldFlush, batchWriter.merge]
  by_cases h : (b.merge e).shouldFlush now = true
  · have hflushed : (batchWriter.Write b e now done storeOk store).flushed = true := by
      cases storeOk <;> simp [batchWriter.Write, batchWriter.flushIfNeeded, h]
    constructor
    · rw [hflushed]
      simp only [true_iff]
      rw [hsf] at h
      simpa using h
    · intro hf
      rw [hflushed] at hf
      exact absurd hf (by simp)
  · have hres : batchWriter.Write b e now done storeOk store =
        { writer := b.merge e, store := store, flushed := false, err := false } := by
      simp [batchWriter.Write, batchWriter.flushIfNeeded, h]
    constructor
    · rw [hres]
      simp only [false_iff]
      rw [hsf] at h
      simpa using h
    · intro _
      rw [hres]
      exact ⟨rfl, rfl⟩

/-- C6 counterexample: the claim fails for a series whose origin contains
the separator.  All written events share one aggregation key (identical
fields `origin="a:b"`, `trace="t"`, `name="cpu"`, `unit="pct"`), yet after
the flush mis-decodes the key (`parseKey` yields origin `"a"`, trace `"b"`,
name `"t"`, unit `"cpu"`), the query for the series returns the empty list,
not the accumulated sum `5`. -/
theorem merge_commutativity_cex :
    Query (flushRows (writeEntries (newBatchWriter 10 100)
        (groupEntries ("a:b".toList) ("t".toList) ("cpu".toList) ("pct".toList) [[5]])).events)
        { traceId := "t".toList, origin := "a:b".toList, event := [] } true true =
      .ok [] ∧
    Query (flushRows (writeEntries (newBatchWriter 10 100)
        (groupEntries ("a:b".toList) ("t".toList) ("cpu".toList) ("pct".toList) [[5]])).events)
        { traceId := "t".toList, origin := "a:b".toList, event := [] } true true ≠
      .ok [{ name := "cpu".toList, value := 5, unit := "pct".toList }] := by
  decide

/-- C6 (amended): merge commutativity for separator-free series, under
exact arithmetic.  For one measurement series (fixed origin, trace, name,
unit, none containing the separator character `':'`), writing its values —
idealising float64 addition as exact — in any order and any grouping into
entries yields the same buffer, whose accumulated value under the series
key is the sum of all values; and after flushing, querying the series
returns that same single total.  When a field contains the separator the
buffers are still order/grouping-invariant, but the post-flush query no
longer reconstitutes the sum (see the counterexample). -/
theorem merge_commutativity (o t n u : Str) (N : Nat) (I : Int)
    (ho : ':' ∉ o) (ht : ':' ∉ t) (hn : ':' ∉ n) (hu : ':' ∉ u)
    (vss1 vss2 : List (List Int)) (hperm : vss1.flatten.Perm vss2.flatten) :
    (writeEntries (newBatchWriter N I) (groupEntries o t n u vss1)).events =
      (writeEntries (newBatchWriter N I) (groupEntries o t n u vss2)).events ∧
    valueAt (key o t n u)
        (writeEntries (newBatchWriter N I) (groupEntries o t n u vss1)).events =
      vss1.flatten.sum ∧
    (vss1.flatten ≠ [] →
      Query (flushRows (writeEntries (newBatchWriter N I) (groupEntries o t n u vss1)).events)
          { traceId := t, origin := o, event := [] } true true =
        .ok [{ name := n, value := vss1.flatten.sum, unit := u }]) := by
  have e1 := writeEntries_groupEntries o t n u vss1 (newBatchWriter N I)
  have e2 := writeEntries_groupEntries o t n u vss2 (newBatchWriter N I)
  rw [show (newBatchWriter N I).events = [] from rfl, constFold_empty] at e1 e2
  have hsum := hperm.sum_eq
  have hnil : vss1.flatten = [] ↔ vss2.flatten = [] := by
    constructor
    · intro h
      have hp := hperm
      rw [h] at hp
      exact hp.symm.eq_nil
    · intro h
      have hp := hperm
      rw [h] at hp
      exact hp.eq_nil
  refine ⟨?_, ?_, ?_⟩
  · rw [e1, e2]
    by_cases h1 : vss1.flatten = []
    · rw [if_pos h1, if_pos (hnil.mp h1)]
    · rw [if_neg h1, if_neg (fun h2 => h1 (hnil.mpr h2)), hsum]
  · rw [e1]
    by_cases h1 : vss1.flatten = []
    · rw [if_pos h1, h1]
      rfl
    · rw [if_neg h1]
      simp [valueAt, lookupA]
  · intro hne
    rw [e1, if_neg hne]
    have hpk := parseKey_key_aux o t n u ho ht hn hu
    have hrows :
        flushRows [(key o t n u, { name := n, value := vss1.flatten.sum, unit := u })] =
          [{ traceId := t, origin := o, name := n, value := vss1.flatten.sum, unit := u }] := by
      simp [flushRows, hpk]
    rw [hrows]
    simp [Query, queryEvents, queryAccum, rowMatches, qkey, rowEvent, accMerge, lookupA,
      List.insertionSort, List.orderedInsert]

/-- C6 witness: the groupings `[[1],[2]]` and `[[2,1]]` of the same value
multiset produce identical buffers, and the post-flush query returns the
single total. -/
theorem merge_commutativity_witness :
    (writeEntries (newBatchWriter 2 100)
        (groupEntries ("o".toList) ("t".toList) ("cpu".toList) ("pct".toList) [[1], [2]])).events =
      (writeEntries (newBatchWriter 2 100)
        (groupEntries ("o".toList) ("t".toList) ("cpu".toList) ("pct".toList) [[2, 1]])).events ∧
    Query (flushRows (writeEntries (newBatchWriter 2 100)
        (groupEntries ("o".toList) ("t".toList) ("cpu".toList) ("pct".toList) [[1], [2]])).events)
        { traceId := "t".toList, origin := "o".toList, event := [] } true true =
      .ok [{ name := "cpu".toList, value := ([[1], [2]] : List (List Int)).flatten.sum,
             unit := "pct".toList }] := by
  have h := merge_commutativity ("o".toList) ("t".toList) ("cpu".toList) ("pct".toList) 2 100
    (by decide) (by decide) (by decide) (by decide) [[1], [2]] [[2, 1]] (by decide)
  exact ⟨h.1, h.2.2 (by decide)⟩

/-- C7: whenever a flush completes successfully (a flush was attempted and
no error was returned), the buffer contains zero entries and `lastExport`
is set to the flush's completion time. -/
theorem post_flush_state (b : batchWriter) (now done : Int) (storeOk : Bool) (store : List Row)
    (h1 : (batchWriter.flushIfNeeded b now done storeOk store).flushed = true)
    (h2 : (batchWriter.flushIfNeeded b now done storeOk store).err = false) :
    (batchWriter.flushIfNeeded b now done storeOk store).writer.events = [] ∧
    (batchWriter.flushIfNeeded b now done storeOk store).writer.lastExport = done := by
  by_cases hc : b.shouldFlush now = true
  · cases storeOk
    · simp [batchWriter.flushIfNeeded, hc] at h2
    · simp [batchWriter.flushIfNeeded, hc]
  · simp [batchWriter.flushIfNeeded, hc] at h1

/-- C7 witness: a concrete successful flush clears the buffer and sets
`lastExport` to the completion instant `60`. -/
theorem post_flush_state_witness :
    (batchWriter.flushIfNeeded
        { events := [(key ("o".toList) ("t".toList) ("cpu".toList) ("pct".toList),
                      { name := "cpu".toList, value := 1, unit := "pct".toList })],
          lastExport := 0, n := 0, flushInterval := 100 }
        50 60 true []).writer.events = [] ∧
    (batchWriter.flushIfNeeded
        { events := [(key ("o".toList) ("t".toList) ("cpu".toList) ("pct".toList),
                      { name := "cpu".toList, value := 1, unit := "pct".toList })],
          lastExport := 0, n := 0, flushInterval := 100 }
        50 60 true []).writer.lastExport = 60 :=
  post_flush_state
    { events := [(key ("o".toList) ("t".toList) ("cpu".toList) ("pct".toList),
                  { name := "cpu".toList, value := 1, unit := "pct".toList })],
      lastExport := 0, n := 0, flushInterval := 100 }
    50 60 true [] (by decide) (by decide)

/-- C8: for every filter and store contents, the list of aggregates
returned by the query is sorted ascending by event name. -/
theorem query_results_sorted (f : Filter) (store : List Row) :
    List.Sorted evLe (queryEvents f store) := by
  unfold queryEvents
  exact List.sorted_insertionSort evLe _

/-- C9: if the filter is invalid (the filter-to-predicate translation
errors) or the store scan fails, the query returns an error and no
aggregate list at all. -/
theorem query_failure_atomic (store : List Row) (f : Filter) (filterOk scanOk : Bool)
    (h : filterOk = false ∨ scanOk = false) :
    (Query store f filterOk scanOk).toOption = none := by
  rcases h with h | h
  · subst h
    rfl
  · subst h
    cases filterOk <;> rfl

/-- C9 witness: an invalid filter yields no result list. -/
theorem query_failure_atomic_witness :
    (Query [] { traceId := [], origin := [], event := [] } false true).toOption = none :=
  query_failure_atomic [] { traceId := [], origin := [], event := [] } false true (Or.inl rfl)

/-- C10 (implicit): a freshly constructed batch writer has `lastExport`
equal to the zero time, so the time trigger holds on the very first write
for any valid positive flush interval (a Go `time.Duration` is below
`2^63` nanoseconds) at any wall-clock instant at least `2^63` nanoseconds
after the zero time (i.e. any date after the third century): the first
write always attempts a flush, regardless of buffer capacity. -/
theorem first_write_always_flushes (n : Nat) (flushInterval now done : Int) (storeOk : Bool)
    (store : List Row) (e : Entry)
    (hI : flushInterval < 2 ^ 63) (hnow : 2 ^ 63 ≤ now) :
    (batchWriter.Write (newBatchWriter n flushInterval) e now done storeOk store).flushed = true := by
  have hlt : (0 : Int) < now - flushInterval := by omega
  have hcond : ((newBatchWriter n flushInterval).merge e).shouldFlush now = true := by
    simp [batchWriter.shouldFlush, batchWriter.merge, newBatchWriter, hlt]
  cases storeOk <;> simp [batchWriter.Write, batchWriter.flushIfNeeded, hcond]

/-- C10 witness: the very first write after construction flushes even
though the buffer holds one aggregate and the capacity is five. -/
theorem first_write_always_flushes_witness :
    (batchWriter.Write (newBatchWriter 5 100)
        { origin := "o".toList, traceId := "t".toList,
          events := [{ name := "cpu".toList, value := 1, unit := "pct".toList }] }
        (2 ^ 63) (2 ^ 63) true []).flushed = true :=
  first_write_always_flushes 5 100 (2 ^ 63) (2 ^ 63) true []
    { origin := "o".toList, traceId := "t".toList,
      events := [{ name := "cpu".toList, value := 1, unit := "pct".toList }] }
    (by norm_num) (le_refl _)

end Myko
